import Mathlib

/-!
Verification of the telemetry signing/verification protocol of the
Embedded-Systems-and-Internet-of-Thing repository.

The development shallowly embeds three components:

* the ESP32 telemetry producer (src/esp32_telematics.ino together with the
  constants of src/config.h): DJB2 signing, packet building, and the
  temperature-driven mode state machine;
* the Arduino authentication controller (src/arduino_auth_controller.ino):
  packet parsing, VIN comparison, digest recomputation, and the serial
  request/response loop;
* the control-unit relay (src/control-unit-iot.js, DataStorageService):
  bounded telemetry history, mode re-derivation and aggregate statistics.

Strings are embedded as lists of characters (all data handled by the
programs is ASCII).  C/JS floating-point temperature values are embedded as
rationals: every comparison the code performs on them (equality with the
sensor error sentinels, the 30/40 threshold comparisons, min/max) is exact,
and the statistics are stated in exact field arithmetic.  The 32-bit
unsigned overflow of the DJB2 hash is embedded explicitly with `% 2^32`.
Hardware and transport side effects (LEDs, LCD, WiFi, MQTT session
management, wall-clock timestamps) are collaborators outside the modelled
core; the functions below model the data transformations the source
performs, with emitted serial/MQTT lines returned explicitly.
-/

/-- Character strings of the embedded programs, as lists of characters. -/
abbrev Str := List Char

/-- The character list of a Lean string literal. -/
def strL (s : String) : Str := s.data

/-- Modulus of C `unsigned long` arithmetic on the ESP32 and the Arduino
(32 bits on both boards). -/
def MOD32 : Nat := 4294967296

/-- One step of the DJB2 loop, `hash = ((hash << 5) + hash) + c`, in 32-bit
unsigned arithmetic (src/esp32_telematics.ino line 304 and
src/arduino_auth_controller.ino line 170). -/
def djb2Step (hash : Nat) (c : Char) : Nat :=
  ((hash <<< 5) + hash + c.toNat) % MOD32

/-- The DJB2 hash of a string, starting from 5381, as both boards compute
it. -/
def djb2 (data : Str) : Nat := data.foldl djb2Step 5381

/-- One lowercase hexadecimal digit, as produced by printf's `%x`. -/
def hexDigit (n : Nat) : Char :=
  if n < 10 then Char.ofNat (48 + n) else Char.ofNat (87 + n)

/-- The `sprintf(hashStr, "%08lx", hash)` conversion: exactly eight
lowercase, zero-padded hexadecimal digits of a 32-bit value. -/
def toHex8 (n : Nat) : Str :=
  (List.range 8).map (fun i => hexDigit ((n >>> (4 * (7 - i))) % 16))

namespace Esp32

/-- TEST_VIN of src/config.h, the producer's identity and signing secret. -/
def VEHICLE_VIN : Str := strL "1HGCM82633A123456"

/-- TEMP_NORMAL of src/config.h: below this the state is NORMAL. -/
def TEMP_NORMAL : ℚ := 30

/-- TEMP_WARNING of src/config.h: at or above this the state is CRITICAL. -/
def TEMP_WARNING : ℚ := 40

/-- FREQ_NORMAL of src/config.h (milliseconds). -/
def FREQ_NORMAL : Nat := 5000

/-- FREQ_WARNING of src/config.h (milliseconds). -/
def FREQ_WARNING : Nat := 2000

/-- FREQ_CRITICAL of src/config.h (milliseconds). -/
def FREQ_CRITICAL : Nat := 1000

/-- The producer's FSM states (enum SystemState). -/
inductive SystemState where
  | normal
  | warning
  | critical
  deriving DecidableEq

/-- getStateName of src/esp32_telematics.ino. -/
def getStateName : SystemState → Str
  | .normal => strL "NORMAL"
  | .warning => strL "WARNING"
  | .critical => strL "CRITICAL"

/-- The producer's mutable FSM state: `currentState` and
`samplingFrequency`. -/
structure EspState where
  currentState : SystemState
  samplingFrequency : Nat
  deriving DecidableEq

/-- updateSystemState of src/esp32_telematics.ino (lines 232-253): assign
state and sampling frequency from the temperature thresholds, and publish
the state name on the state topic exactly when the state changed.  The
returned list holds the MQTT messages published on `vehicle/state`. -/
def updateSystemState (st : EspState) (currentTemperature : ℚ) : EspState × List Str :=
  let newSt : EspState :=
    if currentTemperature < TEMP_NORMAL then
      ⟨SystemState.normal, FREQ_NORMAL⟩
    else if currentTemperature < TEMP_WARNING then
      ⟨SystemState.warning, FREQ_WARNING⟩
    else
      ⟨SystemState.critical, FREQ_CRITICAL⟩
  (newSt,
    if st.currentState ≠ newSt.currentState then [getStateName newSt.currentState] else [])

/-- The temperature kept by collectTelemetryData (src/esp32_telematics.ino
lines 201-210) from a raw DS18B20 reading: the sensor error sentinels
-127.0 and 85.0 are replaced by the fixed fallback 25.0, every other
reading is kept unchanged.  The sensor acquisition itself and the simulated
mileage/DTC randomness are collaborators outside the model. -/
def collectTemperature (reading : ℚ) : ℚ :=
  if reading = -127 ∨ reading = 85 then 25 else reading

/-- buildTelemetryPacket of src/esp32_telematics.ino (lines 284-296), with
the numeric-to-string conversions of the collaborating runtime (String of a
float, of an unsigned long) passed in as already-formatted strings.  The
DTC field is appended only when a diagnostic code is present. -/
def buildTelemetryPacket (tempS mileageS : Str) (state : SystemState) (dtcS tsS : Str) : Str :=
  strL "VIN:" ++ VEHICLE_VIN ++
    (strL "|TEMP:" ++ tempS) ++
    (strL "|MILEAGE:" ++ mileageS) ++
    (strL "|STATE:" ++ getStateName state) ++
    (if dtcS ≠ [] then strL "|DTC:" ++ dtcS else []) ++
    (strL "|TIMESTAMP:" ++ tsS)

/-- signData of src/esp32_telematics.ino (lines 298-311): DJB2 of the data
with the VIN appended, rendered as eight hex digits. -/
def signData (data : Str) : Str := toHex8 (djb2 (data ++ VEHICLE_VIN))

/-- The signed packet the main loop publishes (line 120):
`telemetryData + "|SIG:" + signature`. -/
def mkSignedPacket (telemetryData : Str) : Str :=
  telemetryData ++ strL "|SIG:" ++ signData telemetryData

end Esp32

namespace Auth

/-- EXPECTED_VIN of src/arduino_auth_controller.ino line 23. -/
def EXPECTED_VIN : Str := strL "1HGCM82633A123456"

/-- The verifier's display FSM states (enum DisplayState). -/
inductive DisplayState where
  | waiting
  | authenticating
  | valid
  | invalid
  | error
  deriving DecidableEq

/-- Arduino `String::indexOf(str)`: the index of the first occurrence of
`needle` in the string, `none` for the C return value -1. -/
def indexOf? (needle : Str) (hay : Str) : Option Nat :=
  match hay with
  | [] => if needle.isPrefixOf [] then some 0 else none
  | c :: cs =>
    if needle.isPrefixOf (c :: cs) then some 0
    else (indexOf? needle cs).map (· + 1)

/-- Index of the first occurrence of a character in a list. -/
def idxOfChar? (ch : Char) : Str → Option Nat
  | [] => none
  | c :: cs => if c = ch then some 0 else (idxOfChar? ch cs).map (· + 1)

/-- Arduino `String::indexOf(ch, fromIndex)`: the absolute index of the
first occurrence of `ch` at position `start` or later, `none` for -1. -/
def idxFrom? (ch : Char) (s : Str) (start : Nat) : Option Nat :=
  (idxOfChar? ch (s.drop start)).map (· + start)

/-- Arduino `String::substring(left, right)`: the two bounds are swapped
when out of order and clamped to the string's length. -/
def subArd (s : Str) (left right : Nat) : Str :=
  (s.take (max left right)).drop (min left right)

/-- computeSignature of src/arduino_auth_controller.ino (lines 165-177):
the same DJB2-to-hex rendering as the producer, over the given data. -/
def computeSignature (data : Str) : Str := toHex8 (djb2 data)

/-- verifySignature of src/arduino_auth_controller.ino (lines 127-163):
split at "|SIG:" (fail when absent), locate "VIN:" in the pre-signature
payload (fail when absent), extract the VIN up to the next pipe (to the end
of the payload when there is none, following the unsigned clamp of
`substring`), require it to equal EXPECTED_VIN, then recompute the digest
over payload ++ vin and compare it with the received tag. -/
def verifySignature (packet : Str) : Bool :=
  match indexOf? (strL "|SIG:") packet with
  | none => false
  | some sigIndex =>
    let telemetryData := subArd packet 0 sigIndex
    let receivedSignature := packet.drop (sigIndex + 5)
    match indexOf? (strL "VIN:") telemetryData with
    | none => false
    | some vinIndex =>
      let vinEnd :=
        match idxFrom? '|' telemetryData vinIndex with
        | none => telemetryData.length
        | some e => e
      let vin := subArd telemetryData (vinIndex + 4) vinEnd
      if vin ≠ EXPECTED_VIN then false
      else
        let dataWithVIN := telemetryData ++ vin
        let computedSignature := computeSignature dataWithVIN
        decide (computedSignature = receivedSignature)

/-- The verifier's four failure log lines and its success outcome, exactly
as verifySignature distinguishes them on the serial log ("No signature
found", "No VIN found", "VIN mismatch: ", "Signature: INVALID") before
collapsing them to a boolean verdict. -/
inductive VR where
  | valid
  | noSig
  | noVin
  | vinMismatch
  | sigMismatch
  deriving DecidableEq

/-- The outcome of verifySignature with the internal (log-only) reason kept:
same parse as `verifySignature`, labelled exits. -/
def verifyReason (packet : Str) : VR :=
  match indexOf? (strL "|SIG:") packet with
  | none => VR.noSig
  | some sigIndex =>
    let telemetryData := subArd packet 0 sigIndex
    let receivedSignature := packet.drop (sigIndex + 5)
    match indexOf? (strL "VIN:") telemetryData with
    | none => VR.noVin
    | some vinIndex =>
      let vinEnd :=
        match idxFrom? '|' telemetryData vinIndex with
        | none => telemetryData.length
        | some e => e
      let vin := subArd telemetryData (vinIndex + 4) vinEnd
      if vin ≠ EXPECTED_VIN then VR.vinMismatch
      else
        let dataWithVIN := telemetryData ++ vin
        let computedSignature := computeSignature dataWithVIN
        if computedSignature = receivedSignature then VR.valid else VR.sigMismatch

/-- The lines verifySignature prints on the shared serial link (its
Serial.println calls), in order. -/
def verifyLogs (packet : Str) : List Str :=
  match verifyReason packet with
  | VR.noSig => [strL "No signature found"]
  | VR.noVin => [strL "No VIN found"]
  | VR.vinMismatch =>
    match indexOf? (strL "|SIG:") packet with
    | none => []
    | some sigIndex =>
      let telemetryData := subArd packet 0 sigIndex
      match indexOf? (strL "VIN:") telemetryData with
      | none => []
      | some vinIndex =>
        let vinEnd :=
          match idxFrom? '|' telemetryData vinIndex with
          | none => telemetryData.length
          | some e => e
        [strL "VIN mismatch: " ++ subArd telemetryData (vinIndex + 4) vinEnd]
  | VR.valid => [strL "Signature: VALID"]
  | VR.sigMismatch => [strL "Signature: INVALID"]

/-- The VIN field verifySignature extracts from a packet, `none` when one
of the two parse steps fails (helper naming the packet's identity field for
the statements below; same parse as `verifySignature`). -/
def extractVin (packet : Str) : Option Str :=
  match indexOf? (strL "|SIG:") packet with
  | none => none
  | some sigIndex =>
    let telemetryData := subArd packet 0 sigIndex
    match indexOf? (strL "VIN:") telemetryData with
    | none => none
    | some vinIndex =>
      let vinEnd :=
        match idxFrom? '|' telemetryData vinIndex with
        | none => telemetryData.length
        | some e => e
      some (subArd telemetryData (vinIndex + 4) vinEnd)

/-- Whitespace as Arduino `String::trim` (C `isspace`) removes it. -/
def isWS (c : Char) : Bool :=
  c == ' ' || c == Char.ofNat 9 || c == Char.ofNat 10 ||
    c == Char.ofNat 11 || c == Char.ofNat 12 || c == Char.ofNat 13

/-- Arduino `String::trim`: strip leading and trailing whitespace. -/
def trimArd (s : Str) : Str :=
  ((s.dropWhile isWS).reverse.dropWhile isWS).reverse

/-- One iteration of loop() of src/arduino_auth_controller.ino (lines
70-123) on one complete serial line: trim it; when it starts with
"VERIFY:", run the verification on the rest, print the verification's log
lines followed by exactly one AUTH_RESULT line, and return the display FSM
to waiting after the 3-second dwell; any other line is ignored.  Returns
the new display state and the serial lines printed. -/
def processLine (st : DisplayState) (line : Str) : DisplayState × List Str :=
  let incomingData := trimArd line
  if (strL "VERIFY:").isPrefixOf incomingData then
    let packet := incomingData.drop 7
    let isValid := verifySignature packet
    (DisplayState.waiting,
      verifyLogs packet ++
        [if isValid then strL "AUTH_RESULT:VALID" else strL "AUTH_RESULT:INVALID"])
  else
    (st, [])

end Auth

namespace ControlUnit

/-- One parsed telemetry record as DataStorageService.storeTelemetry
receives it (src/control-unit-iot.js): `temp?` is the value
`parseFloat(data.temp)` would produce, `none` when the temp field is absent
or does not parse as a number (NaN); `payload` abstracts the remaining
key/value fields and the receipt timestamp, which the store never
inspects. -/
structure TRec where
  temp? : Option ℚ
  payload : Nat
  deriving DecidableEq

/-- The relay's store state: bounded history, capacity, and last published
mode string (DataStorageService constructor, lines 142-146). -/
structure StoreState where
  telemetryHistory : List TRec
  maxHistory : Nat
  currentState : Str
  deriving DecidableEq

/-- The freshly constructed DataStorageService. -/
def initialStore : StoreState :=
  { telemetryHistory := [], maxHistory := 100, currentState := strL "NORMAL" }

/-- The new state string updateState computes (lines 163-170):
`'CRITICAL'` at 40 and above, `'WARNING'` at 30 and above, `'NORMAL'`
otherwise. -/
def jsNewState (temperature : ℚ) : Str :=
  if temperature ≥ 40 then strL "CRITICAL"
  else if temperature ≥ 30 then strL "WARNING"
  else strL "NORMAL"

/-- updateState of src/control-unit-iot.js (lines 163-177): derive the new
state from the temperature; when it differs from the current one, record it
and publish it on `vehicle/state`.  The returned list holds the published
messages. -/
def updateState (st : StoreState) (temperature : ℚ) : StoreState × List Str :=
  let newState := jsNewState temperature
  if newState ≠ st.currentState then
    ({ st with currentState := newState }, [newState])
  else
    (st, [])

/-- JavaScript `array.slice(-n)` for n > 0: the last n elements. -/
def sliceLast (l : List TRec) (n : Nat) : List TRec := l.drop (l.length - n)

/-- storeTelemetry of src/control-unit-iot.js (lines 148-161): push the
record, keep only the last `maxHistory` entries when over capacity, then
re-derive the state from `parseFloat(data.temp) || 0` (zero when the field
is missing or NaN, modelled by `Option.getD`). -/
def storeTelemetry (st : StoreState) (r : TRec) : StoreState × List Str :=
  let h := st.telemetryHistory ++ [r]
  let h2 := if h.length > st.maxHistory then sliceLast h st.maxHistory else h
  updateState { st with telemetryHistory := h2 } (r.temp?.getD 0)

/-- Folding storeTelemetry over a list of incoming records (the MQTT
handler calls it once per telemetry message). -/
def storeAll (st : StoreState) (rs : List TRec) : StoreState :=
  rs.foldl (fun s r => (storeTelemetry s r).1) st

/-- JavaScript `Math.min(...temps)` on a non-empty argument list (the empty
case, +Infinity in JS, is unreachable behind the length guard and mapped to
0 here). -/
def mathMin : List ℚ → ℚ
  | [] => 0
  | x :: xs => xs.foldl min x

/-- JavaScript `Math.max(...temps)` on a non-empty argument list. -/
def mathMax : List ℚ → ℚ
  | [] => 0
  | x :: xs => xs.foldl max x

/-- The statistics object getStatistics returns. -/
structure Stats where
  avg : ℚ
  min : ℚ
  max : ℚ
  count : Nat
  deriving DecidableEq

/-- The temperature values getStatistics aggregates: the history's temp
fields that parse as numbers (`map(parseFloat).filter(!isNaN)`, embedded as
`filterMap`). -/
def parsedTemps (st : StoreState) : List ℚ :=
  st.telemetryHistory.filterMap (fun t => t.temp?)

/-- getStatistics of src/control-unit-iot.js (lines 187-206): zeros for an
empty history, else min/max/mean/count over the records whose temp field
parses, with zeros again when no temp parses. -/
def getStatistics (st : StoreState) : Stats :=
  if st.telemetryHistory.length = 0 then ⟨0, 0, 0, 0⟩
  else
    let temps := parsedTemps st
    if temps.length = 0 then ⟨0, 0, 0, 0⟩
    else
      ⟨temps.foldl (· + ·) 0 / (temps.length : ℚ),
        mathMin temps, mathMax temps, temps.length⟩

end ControlUnit

/-! ### Proof toolkit: substring occurrences

Support for reasoning about the verifier's `indexOf?` parsing of packets
built by the producer. -/

/-- Whether `needle` occurs nowhere as a contiguous substring of `p`: no
tail of `p` starts with it. -/
def noOcc (needle p : Str) : Bool := p.tails.all (fun t => !(needle.isPrefixOf t))

/-- A forged packet for the identity-mismatch statements: its VIN field is
"VIN2", and its tag is exactly the digest the verifier would recompute for
it, so only the identity check can reject it. -/
def forgedPacket : Str :=
  strL "VIN:VIN2|TEMP:25.00" ++ strL "|SIG:" ++
    Auth.computeSignature (strL "VIN:VIN2|TEMP:25.00" ++ strL "VIN2")

theorem noOcc_cons (needle : Str) (c : Char) (p : Str) :
    noOcc needle (c :: p) = (!(needle.isPrefixOf (c :: p)) && noOcc needle p) := by
  simp [noOcc, List.tails_cons]

theorem noOcc_all {needle p t : Str} (h : noOcc needle p = true) (ht : t ∈ p.tails) :
    needle.isPrefixOf t = false := by
  simp only [noOcc, List.all_eq_true] at h
  simpa using h t ht

theorem isPrefixOf_append_self (n x : Str) : n.isPrefixOf (n ++ x) = true :=
  List.isPrefixOf_iff_prefix.mpr (List.prefix_append n x)

theorem noOcc_pipeFree_append (c0 : Char) (n : Str) (a r : Str) (ha : c0 ∉ a) :
    noOcc (c0 :: n) (a ++ r) = noOcc (c0 :: n) r := by
  induction a with
  | nil => rfl
  | cons x a2 ih =>
    have hx : (c0 == x) = false := by
      simp only [beq_eq_false_iff_ne, ne_eq]
      exact fun h => ha (h ▸ List.mem_cons_self x a2)
    have h2 : c0 ∉ a2 := fun h => ha (List.mem_cons_of_mem x h)
    rw [List.cons_append, noOcc_cons, ih h2]
    simp [List.isPrefixOf, hx]

/-- Specialisation of `noOcc_pipeFree_append` to the signature delimiter:
a pipe-free prefix holds no occurrence of "|SIG:". -/
theorem noOcc_sigD_pipeFree_append (a r : Str) (ha : '|' ∉ a) :
    noOcc (strL "|SIG:") (a ++ r) = noOcc (strL "|SIG:") r :=
  noOcc_pipeFree_append '|' (strL "SIG:") a r ha

theorem noOcc_sigD_pipeFree (a : Str) (ha : '|' ∉ a) :
    noOcc (strL "|SIG:") a = true := by
  rw [← List.append_nil a, noOcc_sigD_pipeFree_append a [] ha]
  rfl

theorem noOcc_sep_TEMP (r : Str) :
    noOcc (strL "|SIG:") (strL "|TEMP:" ++ r) = noOcc (strL "|SIG:") r := by
  show noOcc (strL "|SIG:") ('|' :: 'T' :: 'E' :: 'M' :: 'P' :: ':' :: r) = _
  simp [noOcc_cons, List.isPrefixOf, strL]

theorem noOcc_sep_MILEAGE (r : Str) :
    noOcc (strL "|SIG:") (strL "|MILEAGE:" ++ r) = noOcc (strL "|SIG:") r := by
  show noOcc (strL "|SIG:")
    ('|' :: 'M' :: 'I' :: 'L' :: 'E' :: 'A' :: 'G' :: 'E' :: ':' :: r) = _
  simp [noOcc_cons, List.isPrefixOf, strL]

theorem noOcc_sep_STATE (r : Str) :
    noOcc (strL "|SIG:") (strL "|STATE:" ++ r) = noOcc (strL "|SIG:") r := by
  show noOcc (strL "|SIG:") ('|' :: 'S' :: 'T' :: 'A' :: 'T' :: 'E' :: ':' :: r) = _
  simp [noOcc_cons, List.isPrefixOf, strL]

theorem noOcc_sep_DTC (r : Str) :
    noOcc (strL "|SIG:") (strL "|DTC:" ++ r) = noOcc (strL "|SIG:") r := by
  show noOcc (strL "|SIG:") ('|' :: 'D' :: 'T' :: 'C' :: ':' :: r) = _
  simp [noOcc_cons, List.isPrefixOf, strL]

theorem noOcc_sep_TIMESTAMP (r : Str) :
    noOcc (strL "|SIG:") (strL "|TIMESTAMP:" ++ r) = noOcc (strL "|SIG:") r := by
  show noOcc (strL "|SIG:")
    ('|' :: 'T' :: 'I' :: 'M' :: 'E' :: 'S' :: 'T' :: 'A' :: 'M' :: 'P' :: ':' :: r) = _
  simp [noOcc_cons, List.isPrefixOf, strL]

/-- A packet built by the producer holds no internal occurrence of the
signature delimiter as long as its variable fields are pipe-free: every
pipe of the packet is a field separator followed by one of the five field
keys, none of which starts with "SIG:". -/
theorem noOcc_build (tempS mileageS : Str) (st : Esp32.SystemState) (dtcS tsS : Str)
    (h1 : '|' ∉ tempS) (h2 : '|' ∉ mileageS) (h3 : '|' ∉ dtcS) (h4 : '|' ∉ tsS) :
    noOcc (strL "|SIG:") (Esp32.buildTelemetryPacket tempS mileageS st dtcS tsS) = true := by
  have hstate : '|' ∉ Esp32.getStateName st := by cases st <;> decide
  rw [Esp32.buildTelemetryPacket]
  rcases eq_or_ne dtcS [] with hd | hd
  · subst hd
    simp only [ne_eq, not_true_eq_false, if_false, List.append_nil, List.append_assoc]
    rw [noOcc_sigD_pipeFree_append (strL "VIN:") _ (by decide),
      noOcc_sigD_pipeFree_append Esp32.VEHICLE_VIN _ (by decide),
      noOcc_sep_TEMP, noOcc_sigD_pipeFree_append tempS _ h1,
      noOcc_sep_MILEAGE, noOcc_sigD_pipeFree_append mileageS _ h2,
      noOcc_sep_STATE, noOcc_sigD_pipeFree_append (Esp32.getStateName st) _ hstate,
      noOcc_sep_TIMESTAMP]
    exact noOcc_sigD_pipeFree tsS h4
  · simp only [ne_eq, hd, not_false_eq_true, if_true, List.append_assoc]
    rw [noOcc_sigD_pipeFree_append (strL "VIN:") _ (by decide),
      noOcc_sigD_pipeFree_append Esp32.VEHICLE_VIN _ (by decide),
      noOcc_sep_TEMP, noOcc_sigD_pipeFree_append tempS _ h1,
      noOcc_sep_MILEAGE, noOcc_sigD_pipeFree_append mileageS _ h2,
      noOcc_sep_STATE, noOcc_sigD_pipeFree_append (Esp32.getStateName st) _ hstate,
      noOcc_sep_DTC, noOcc_sigD_pipeFree_append dtcS _ h3,
      noOcc_sep_TIMESTAMP]
    exact noOcc_sigD_pipeFree tsS h4

theorem indexOf?_of_isPrefixOf {needle hay : Str} (h : needle.isPrefixOf hay = true) :
    Auth.indexOf? needle hay = some 0 := by
  cases hay <;> simp [Auth.indexOf?, h]

theorem indexOf?_append_shift (needle a c : Str)
    (h : ∀ t ∈ a.tails, t ≠ [] → needle.isPrefixOf (t ++ c) = false) :
    Auth.indexOf? needle (a ++ c) = (Auth.indexOf? needle c).map (· + a.length) := by
  induction a with
  | nil => simp
  | cons x a2 ih =>
    have hx := h (x :: a2) (by simp [List.tails_cons]) (by simp)
    rw [List.cons_append, Auth.indexOf?,
      if_neg (fun hc => by rw [← List.cons_append, hx] at hc; exact absurd hc (by simp)),
      ih (fun t ht hne => h t (by rw [List.tails_cons]; exact List.mem_cons_of_mem _ ht) hne)]
    cases Auth.indexOf? needle c
    · rfl
    · simp
      omega

/-- No occurrence of "|SIG:" can straddle the boundary between a payload
free of it and an appended "|SIG:": the delimiter's only pipe is its first
character. -/
theorem sigDelim_no_straddle (p sig : Str) (h : noOcc (strL "|SIG:") p = true) :
    ∀ t ∈ p.tails, t ≠ [] →
      (strL "|SIG:").isPrefixOf (t ++ (strL "|SIG:" ++ sig)) = false := by
  intro t ht hne
  by_contra hc
  rw [Bool.not_eq_false] at hc
  obtain ⟨u, hu⟩ := List.isPrefixOf_iff_prefix.mp hc
  by_cases h5 : 5 ≤ t.length
  · have htake : (strL "|SIG:") = t.take 5 := by
      have := congrArg (List.take 5) hu
      rw [show (5 : Nat) = (strL "|SIG:").length from rfl] at this
      rw [List.take_left] at this
      rwa [show ((strL "|SIG:").length : Nat) = 5 from rfl,
        List.take_append_eq_append_take, Nat.sub_eq_zero_of_le h5, List.take_zero,
        List.append_nil] at this
    have hpre : (strL "|SIG:").isPrefixOf t = true :=
      List.isPrefixOf_iff_prefix.mpr (htake ▸ List.take_prefix 5 t)
    rw [noOcc_all h ht] at hpre
    exact absurd hpre (by simp)
  · have hlen : t.length ≤ 5 := by omega
    have ht5 : (strL "|SIG:").take t.length = t := by
      have := congrArg (List.take t.length) hu
      rw [List.take_left] at this
      rw [List.take_append_eq_append_take,
        show ((strL "|SIG:").length : Nat) = 5 from rfl,
        Nat.sub_eq_zero_of_le hlen, List.take_zero, List.append_nil] at this
      exact this
    have hk : t.length = 1 ∨ t.length = 2 ∨ t.length = 3 ∨ t.length = 4 := by
      have : 1 ≤ t.length := List.length_pos.mpr hne
      omega
    rcases hk with hk | hk | hk | hk <;>
      rw [hk] at ht5 <;> simp [strL] at ht5 <;> subst ht5 <;> simp [strL] at hu

/-- The first occurrence of "|SIG:" in a signed packet is exactly at the
end of the payload, provided the payload holds no occurrence of its own. -/
theorem indexOf?_sigDelim_append (p sig : Str) (h : noOcc (strL "|SIG:") p = true) :
    Auth.indexOf? (strL "|SIG:") (p ++ (strL "|SIG:" ++ sig)) = some p.length := by
  rw [indexOf?_append_shift _ _ _ (sigDelim_no_straddle p sig h),
    indexOf?_of_isPrefixOf (isPrefixOf_append_self _ _)]
  simp

theorem idxOfChar?_append_cons (ch : Char) (a b : Str) (ha : ch ∉ a) :
    Auth.idxOfChar? ch (a ++ ch :: b) = some a.length := by
  induction a with
  | nil => simp [Auth.idxOfChar?]
  | cons x a2 ih =>
    have hx : ¬(x = ch) := fun h => ha (h ▸ List.mem_cons_self x a2)
    have h2 : ch ∉ a2 := fun h => ha (List.mem_cons_of_mem x h)
    rw [List.cons_append, Auth.idxOfChar?, if_neg hx, ih h2]
    rfl

/-- Core of the round-trip: verifying a packet whose payload starts with
the expected VIN field and holds no internal signature delimiter succeeds. -/
theorem verify_roundtrip_aux (rest : Str)
    (hno : noOcc (strL "|SIG:") (strL "VIN:1HGCM82633A123456|" ++ rest) = true) :
    Auth.verifySignature
      (Esp32.mkSignedPacket (strL "VIN:1HGCM82633A123456|" ++ rest)) = true := by
  set payload : Str := strL "VIN:1HGCM82633A123456|" ++ rest with hpay
  have hsig : Auth.indexOf? (strL "|SIG:")
      (payload ++ (strL "|SIG:" ++ Esp32.signData payload)) = some payload.length :=
    indexOf?_sigDelim_append payload _ hno
  have htd : (payload ++ (strL "|SIG:" ++ Esp32.signData payload)).take payload.length
      = payload := List.take_left _ _
  have hrs : (payload ++ (strL "|SIG:" ++ Esp32.signData payload)).drop (payload.length + 5)
      = Esp32.signData payload := by
    rw [← List.append_assoc,
      show payload.length + 5 = (payload ++ strL "|SIG:").length by
        simp [List.length_append]; rfl,
      List.drop_left]
  have hvin0 : Auth.indexOf? (strL "VIN:") payload = some 0 :=
    indexOf?_of_isPrefixOf (by rw [hpay]; rfl)
  have hp0 : Auth.idxOfChar? '|' payload = some 21 :=
    idxOfChar?_append_cons '|' (strL "VIN:1HGCM82633A123456") rest (by decide)
  have htake : payload.take 21 = strL "VIN:1HGCM82633A123456" :=
    List.take_left (strL "VIN:1HGCM82633A123456") ('|' :: rest)
  rw [Esp32.mkSignedPacket, List.append_assoc]
  simp only [Auth.verifySignature]
  rw [hsig]
  simp only [Auth.subArd, Nat.zero_max, Nat.zero_min, List.drop_zero]
  rw [htd, hvin0]
  simp only []
  have hpf : Auth.idxFrom? '|' payload 0 = some 21 := by
    simp [Auth.idxFrom?, hp0]
  rw [hpf]
  simp only []
  norm_num
  rw [htake]
  refine ⟨by decide, ?_⟩
  rw [show List.drop 4 (strL "VIN:1HGCM82633A123456") = Esp32.VEHICLE_VIN from rfl,
    show List.drop 5 (strL "|SIG:" ++ Esp32.signData payload) = Esp32.signData payload from rfl]
  rfl

/-- C1: round-trip.  Every telemetry packet the producer builds (with its
configured identity, equal to the verifier's EXPECTED_VIN, and pipe-free
field contents) verifies as Valid once signed: the verifier's recomputed
DJB2 digest over the extracted payload concatenated with the extracted
identity equals the attached tag. -/
theorem C1_sign_verify_roundtrip (tempS mileageS : Str) (st : Esp32.SystemState)
    (dtcS tsS : Str)
    (h1 : '|' ∉ tempS) (h2 : '|' ∉ mileageS) (h3 : '|' ∉ dtcS) (h4 : '|' ∉ tsS) :
    Auth.verifySignature (Esp32.mkSignedPacket
      (Esp32.buildTelemetryPacket tempS mileageS st dtcS tsS)) = true := by
  have hno := noOcc_build tempS mileageS st dtcS tsS h1 h2 h3 h4
  exact verify_roundtrip_aux
    (strL "TEMP:" ++
      ((((tempS ++ (strL "|MILEAGE:" ++ mileageS)) ++
          (strL "|STATE:" ++ Esp32.getStateName st)) ++
        (if dtcS ≠ [] then strL "|DTC:" ++ dtcS else [])) ++
        (strL "|TIMESTAMP:" ++ tsS)))
    hno

/-- Witness for C1 at a concrete packet (temperature 25.00, mileage 45000,
state NORMAL, no DTC, timestamp 1000). -/
theorem C1_witness :
    Auth.verifySignature (Esp32.mkSignedPacket
      (Esp32.buildTelemetryPacket (strL "25.00") (strL "45000")
        Esp32.SystemState.normal [] (strL "1000"))) = true :=
  C1_sign_verify_roundtrip _ _ _ _ _ (by decide) (by decide) (by decide) (by decide)

/-- C2: identity mismatch short-circuits the verifier.  Whenever the
identity field extracted from a packet differs from EXPECTED_VIN, the
verdict is Invalid and the internal outcome is the VIN-mismatch log exit,
reached before any digest comparison — even when the attached tag matches
the recomputed digest. -/
theorem C2_identity_mismatch (p v : Str)
    (hv : Auth.extractVin p = some v) (hne : v ≠ Auth.EXPECTED_VIN) :
    Auth.verifySignature p = false ∧ Auth.verifyReason p = Auth.VR.vinMismatch := by
  unfold Auth.extractVin at hv
  unfold Auth.verifySignature Auth.verifyReason
  cases hs : Auth.indexOf? (strL "|SIG:") p with
  | none => rw [hs] at hv; exact absurd hv (by simp)
  | some sigIndex =>
    rw [hs] at hv
    simp only [] at hv ⊢
    cases hvi : Auth.indexOf? (strL "VIN:") (Auth.subArd p 0 sigIndex) with
    | none => rw [hvi] at hv; exact absurd hv (by simp)
    | some vinIndex =>
      rw [hvi] at hv
      simp only []
      simp only [Option.some.injEq] at hv
      rw [hv]
      simp [hne]

/-- Witness for C2: the forged packet's identity field is "VIN2", its tag
matches the digest the verifier recomputes, and still the verdict is
Invalid with the VIN-mismatch internal outcome. -/
theorem C2_witness :
    Auth.extractVin forgedPacket = some (strL "VIN2") ∧
    strL "VIN2" ≠ Auth.EXPECTED_VIN ∧
    Auth.verifySignature forgedPacket = false ∧
    Auth.verifyReason forgedPacket = Auth.VR.vinMismatch :=
  ⟨by decide, by decide,
    (C2_identity_mismatch forgedPacket (strL "VIN2") (by decide) (by decide)).1,
    (C2_identity_mismatch forgedPacket (strL "VIN2") (by decide) (by decide)).2⟩

/-- C7: the verifier's outcome is total and binary.  Every input string
yields a boolean verdict; the verdict is Valid exactly when the internal
outcome is the success exit, so the four failure reasons (missing
delimiter, missing identity, identity mismatch, digest mismatch) are
indistinguishable in the returned verdict: each resolves to Invalid, only
an exact digest match resolves to Valid, and the reasons exist only in the
serial-log model, never in the returned verdict. -/
theorem C7_verdict_total_binary (p : Str) :
    (Auth.verifySignature p = true ∨ Auth.verifySignature p = false) ∧
    (Auth.verifySignature p = true ↔ Auth.verifyReason p = Auth.VR.valid) ∧
    (Auth.verifyReason p ≠ Auth.VR.valid → Auth.verifySignature p = false) := by
  have key : Auth.verifySignature p = true ↔ Auth.verifyReason p = Auth.VR.valid := by
    unfold Auth.verifySignature Auth.verifyReason
    split
    · decide
    · simp only []
      split
      · decide
      · split_ifs with h1 h2
        · decide
        · simp [h2]
        · simp [h2]
  refine ⟨?_, key, fun hne => ?_⟩
  · cases Auth.verifySignature p
    · right; rfl
    · left; rfl
  · cases h : Auth.verifySignature p
    · rfl
    · exact absurd (key.mp h) hne

theorem authPre_mismatch (v : Str) :
    (strL "AUTH_RESULT:").isPrefixOf (strL "VIN mismatch: " ++ v) = false := rfl

/-- None of the verifier's diagnostic log lines starts with the
AUTH_RESULT response marker: the reason codes are invisible to the control
unit's response parsing. -/
theorem verifyLogs_no_auth (packet : Str) :
    (Auth.verifyLogs packet).filter
      (fun l => (strL "AUTH_RESULT:").isPrefixOf l) = [] := by
  unfold Auth.verifyLogs
  split
  · decide
  · decide
  · simp only []
    split
    · rfl
    · split
      · rfl
      · simp [authPre_mismatch]
  · decide
  · decide

/-- C10: one serial line, one response.  A processed line produces exactly
one AUTH_RESULT line (AUTH_RESULT:VALID or AUTH_RESULT:INVALID, by the
verification verdict) precisely when the trimmed line starts with
"VERIFY:", and the display state then returns to waiting; any other line
produces no output at all and leaves the display state unchanged. -/
theorem C10_serial_loop (st : Auth.DisplayState) (line : Str) :
    ((Auth.processLine st line).2.filter
        (fun l => (strL "AUTH_RESULT:").isPrefixOf l) =
      (if (strL "VERIFY:").isPrefixOf (Auth.trimArd line) then
        [if Auth.verifySignature ((Auth.trimArd line).drop 7) then
            strL "AUTH_RESULT:VALID"
          else strL "AUTH_RESULT:INVALID"]
      else [])) ∧
    ((Auth.processLine st line).2 = [] ↔
      (strL "VERIFY:").isPrefixOf (Auth.trimArd line) = false) ∧
    ((Auth.processLine st line).1 =
      (if (strL "VERIFY:").isPrefixOf (Auth.trimArd line) then Auth.DisplayState.waiting
      else st)) := by
  unfold Auth.processLine
  by_cases hv : (strL "VERIFY:").isPrefixOf (Auth.trimArd line) = true
  · refine ⟨?_, ?_, ?_⟩
    · simp only [hv, if_true, if_pos]
      rw [List.filter_append, verifyLogs_no_auth, List.nil_append]
      by_cases hb : Auth.verifySignature ((Auth.trimArd line).drop 7) = true
      · simp only [hb, if_true, if_pos]
        simp [List.filter]
        decide
      · rw [Bool.not_eq_true] at hb
        simp only [hb, Bool.false_eq_true, if_false]
        simp [List.filter]
        decide
    · simp [hv]
    · simp [hv]
  · rw [Bool.not_eq_true] at hv
    simp [hv]

/-- The mode updateSystemState assigns is a pure two-threshold function of
the temperature, for every previous state. -/
theorem updateSystemState_mode (s : Esp32.EspState) (t : ℚ) :
    (Esp32.updateSystemState s t).1.currentState =
      (if t < 30 then Esp32.SystemState.normal
       else if t < 40 then Esp32.SystemState.warning
       else Esp32.SystemState.critical) := by
  by_cases h1 : t < 30 <;> by_cases h2 : t < 40 <;>
    simp [Esp32.updateSystemState, Esp32.TEMP_NORMAL, Esp32.TEMP_WARNING, h1, h2]

/-- C3: mode classification.  For every temperature and every previous
producer state, updateSystemState assigns Normal exactly below 30, Warning
exactly in [30, 40), Critical exactly at and above 40, and the assigned
mode does not depend on the previous state (the enum has no further
constructors, so no other mode is reachable). -/
theorem C3_mode_classification (st : Esp32.EspState) (t : ℚ) :
    ((Esp32.updateSystemState st t).1.currentState = Esp32.SystemState.normal ↔ t < 30) ∧
    ((Esp32.updateSystemState st t).1.currentState = Esp32.SystemState.warning ↔
      30 ≤ t ∧ t < 40) ∧
    ((Esp32.updateSystemState st t).1.currentState = Esp32.SystemState.critical ↔ 40 ≤ t) ∧
    (∀ st2 : Esp32.EspState,
      (Esp32.updateSystemState st t).1.currentState =
        (Esp32.updateSystemState st2 t).1.currentState) := by
  rw [updateSystemState_mode st t]
  refine ⟨?_, ?_, ?_, fun st2 => by rw [updateSystemState_mode st2 t]⟩
  · by_cases h1 : t < 30 <;> by_cases h2 : t < 40 <;> simp [h1, h2]
  · by_cases h1 : t < 30 <;> by_cases h2 : t < 40 <;> simp [h1, h2] <;> linarith
  · by_cases h1 : t < 30 <;> by_cases h2 : t < 40 <;> simp [h1, h2] <;> linarith

/-- C5: the relay's independent mode re-derivation agrees extensionally
with the producer's two-threshold classification: for every temperature
and every producer state, the state string the relay derives equals the
name of the mode the producer classifies. -/
theorem C5_relay_mode_matches_producer (t : ℚ) (st : Esp32.EspState) :
    ControlUnit.jsNewState t =
      Esp32.getStateName ((Esp32.updateSystemState st t).1.currentState) := by
  rw [updateSystemState_mode st t]
  by_cases h1 : t < 30
  · have g40 : ¬t ≥ 40 := by linarith
    have g30 : ¬t ≥ 30 := by linarith
    simp [ControlUnit.jsNewState, Esp32.getStateName, h1, g30, g40]
  · by_cases h2 : t < 40
    · have g40 : ¬t ≥ 40 := by linarith
      have g30 : t ≥ 30 := by linarith
      simp [ControlUnit.jsNewState, Esp32.getStateName, h1, h2, g30, g40]
    · have g40 : t ≥ 40 := by linarith
      simp [ControlUnit.jsNewState, Esp32.getStateName, h1, h2, g40]

/-- C8: sensor fault handling.  A raw reading equal to one of the DS18B20
error sentinels (outside the sane range) is replaced by the fixed fallback
25.0 and the cycle continues with that value; every other reading is kept
unchanged. -/
theorem C8_sensor_fallback (reading : ℚ) :
    (reading = -127 ∨ reading = 85 → Esp32.collectTemperature reading = 25) ∧
    (reading ≠ -127 ∧ reading ≠ 85 → Esp32.collectTemperature reading = reading) := by
  constructor
  · intro h
    simp [Esp32.collectTemperature, h]
  · intro h
    simp [Esp32.collectTemperature, h.1, h.2]

theorem updateState_fields (st : ControlUnit.StoreState) (t : ℚ) :
    (ControlUnit.updateState st t).1.telemetryHistory = st.telemetryHistory ∧
    (ControlUnit.updateState st t).1.maxHistory = st.maxHistory := by
  unfold ControlUnit.updateState
  simp only []
  split_ifs <;> exact ⟨rfl, rfl⟩

theorem storeTelemetry_history (st : ControlUnit.StoreState) (r : ControlUnit.TRec) :
    (ControlUnit.storeTelemetry st r).1.telemetryHistory =
      (if (st.telemetryHistory ++ [r]).length > st.maxHistory then
        ControlUnit.sliceLast (st.telemetryHistory ++ [r]) st.maxHistory
      else st.telemetryHistory ++ [r]) ∧
    (ControlUnit.storeTelemetry st r).1.maxHistory = st.maxHistory := by
  unfold ControlUnit.storeTelemetry
  exact ⟨(updateState_fields _ _).1, (updateState_fields _ _).2⟩

theorem storeTelemetry_length_le (st : ControlUnit.StoreState) (r : ControlUnit.TRec)
    (hm : st.maxHistory = 100) (hb : st.telemetryHistory.length ≤ 100) :
    (ControlUnit.storeTelemetry st r).1.telemetryHistory.length ≤ 100 := by
  rw [(storeTelemetry_history st r).1, hm]
  split_ifs with h
  · unfold ControlUnit.sliceLast
    rw [List.length_drop]
    omega
  · rw [List.length_append] at h ⊢
    simp only [List.length_singleton] at h ⊢
    omega

theorem sliceLast_eq_self (l : List ControlUnit.TRec) (n : Nat) (h : l.length ≤ n) :
    ControlUnit.sliceLast l n = l := by
  unfold ControlUnit.sliceLast
  rw [Nat.sub_eq_zero_of_le h, List.drop_zero]

theorem sliceLast_drop_append (x y : List ControlUnit.TRec) (d n : Nat)
    (hd : d ≤ x.length) (hn : n + d ≤ x.length + y.length) :
    ControlUnit.sliceLast (x.drop d ++ y) n = ControlUnit.sliceLast (x ++ y) n := by
  have hsplit : (x ++ y).drop d = x.drop d ++ y := by
    rw [List.drop_append_eq_append_drop, Nat.sub_eq_zero_of_le hd, List.drop_zero]
  unfold ControlUnit.sliceLast
  rw [← hsplit, List.drop_drop]
  congr 1
  simp only [List.length_drop, List.length_append]
  omega

theorem storeAll_history (rs : List ControlUnit.TRec) :
    ∀ st : ControlUnit.StoreState, st.maxHistory = 100 →
      st.telemetryHistory.length ≤ 100 →
      (ControlUnit.storeAll st rs).telemetryHistory =
        ControlUnit.sliceLast (st.telemetryHistory ++ rs) 100 := by
  induction rs with
  | nil =>
    intro st hm hb
    unfold ControlUnit.storeAll
    rw [List.foldl_nil, List.append_nil, sliceLast_eq_self _ _ hb]
  | cons r rs ih =>
    intro st hm hb
    have hstep := storeTelemetry_history st r
    have hm2 : (ControlUnit.storeTelemetry st r).1.maxHistory = 100 := by
      rw [hstep.2, hm]
    have hb2 := storeTelemetry_length_le st r hm hb
    have hfold : ControlUnit.storeAll st (r :: rs) =
        ControlUnit.storeAll (ControlUnit.storeTelemetry st r).1 rs := rfl
    rw [hfold, ih _ hm2 hb2, hstep.1, hm]
    split_ifs with h
    · have hxlen : (st.telemetryHistory ++ [r]).length = st.telemetryHistory.length + 1 := by
        rw [List.length_append, List.length_singleton]
      have hl : st.telemetryHistory.length = 100 := by
        rw [hxlen] at h
        omega
      rw [show ControlUnit.sliceLast (st.telemetryHistory ++ [r]) 100 =
          (st.telemetryHistory ++ [r]).drop ((st.telemetryHistory ++ [r]).length - 100)
          from rfl]
      rw [sliceLast_drop_append _ _ _ _ (by omega)
        (by rw [hxlen, hl]; omega)]
      rw [List.append_assoc, List.singleton_append]
    · rw [List.append_assoc, List.singleton_append]

/-- C4: history bound.  Filling the freshly constructed store with 100+k
records (k at least 1) leaves exactly the most recent 100 of them in
arrival order, and every single insertion into a store within its capacity
keeps the history within its capacity. -/
theorem C4_history_bound (rs : List ControlUnit.TRec) (k : Nat)
    (hlen : rs.length = 100 + k) (hk : 1 ≤ k)
    (st : ControlUnit.StoreState) (r : ControlUnit.TRec)
    (hm : st.maxHistory = 100) (hb : st.telemetryHistory.length ≤ 100) :
    (ControlUnit.storeAll ControlUnit.initialStore rs).telemetryHistory = rs.drop k ∧
    (ControlUnit.storeAll ControlUnit.initialStore rs).telemetryHistory.length = 100 ∧
    (ControlUnit.storeTelemetry st r).1.telemetryHistory.length ≤ 100 := by
  have h1 : (ControlUnit.storeAll ControlUnit.initialStore rs).telemetryHistory =
      ControlUnit.sliceLast ([] ++ rs) 100 :=
    storeAll_history rs ControlUnit.initialStore rfl (by simp [ControlUnit.initialStore])
  rw [List.nil_append] at h1
  have h2 : ControlUnit.sliceLast rs 100 = rs.drop k := by
    unfold ControlUnit.sliceLast
    rw [hlen]
    congr 1
    omega
  refine ⟨by rw [h1, h2], ?_, storeTelemetry_length_le st r hm hb⟩
  rw [h1, h2, List.length_drop, hlen]
  omega

/-- Witness for C4: 101 identical records inserted into the fresh store
leave the last 100 of them, and a store at capacity stays at capacity. -/
theorem C4_witness :
    (ControlUnit.storeAll ControlUnit.initialStore
        (List.replicate 101 (⟨none, 0⟩ : ControlUnit.TRec))).telemetryHistory =
      (List.replicate 101 (⟨none, 0⟩ : ControlUnit.TRec)).drop 1 ∧
    (ControlUnit.storeAll ControlUnit.initialStore
        (List.replicate 101 (⟨none, 0⟩ : ControlUnit.TRec))).telemetryHistory.length = 100 ∧
    (ControlUnit.storeTelemetry ControlUnit.initialStore
        (⟨none, 0⟩ : ControlUnit.TRec)).1.telemetryHistory.length ≤ 100 :=
  C4_history_bound (List.replicate 101 ⟨none, 0⟩) 1 (by simp) (by decide)
    ControlUnit.initialStore ⟨none, 0⟩ rfl (by decide)

theorem foldl_min_le (xs : List ℚ) :
    ∀ x y, y ∈ x :: xs → xs.foldl min x ≤ y := by
  induction xs with
  | nil =>
    intro x y hy
    rw [List.mem_singleton] at hy
    rw [hy]
    exact le_refl _
  | cons a xs ih =>
    intro x y hy
    rw [List.foldl_cons]
    rcases List.mem_cons.mp hy with hy | hy
    · calc xs.foldl min (min x a) ≤ min x a := ih (min x a) _ (List.mem_cons_self _ _)
        _ ≤ x := min_le_left _ _
        _ = y := hy.symm
    · rcases List.mem_cons.mp hy with hy | hy
      · calc xs.foldl min (min x a) ≤ min x a := ih (min x a) _ (List.mem_cons_self _ _)
          _ ≤ a := min_le_right _ _
          _ = y := hy.symm
      · exact ih (min x a) y (List.mem_cons_of_mem _ hy)

theorem foldl_min_mem (xs : List ℚ) : ∀ x, xs.foldl min x ∈ x :: xs := by
  induction xs with
  | nil => intro x; exact List.mem_singleton.mpr rfl
  | cons a xs ih =>
    intro x
    rw [List.foldl_cons]
    rcases List.mem_cons.mp (ih (min x a)) with h | h
    · rcases min_choice x a with hc | hc
      · rw [h, hc]; exact List.mem_cons_self _ _
      · rw [h, hc]; exact List.mem_cons_of_mem _ (List.mem_cons_self _ _)
    · exact List.mem_cons_of_mem _ (List.mem_cons_of_mem _ h)

theorem foldl_max_le (xs : List ℚ) :
    ∀ x y, y ∈ x :: xs → y ≤ xs.foldl max x := by
  induction xs with
  | nil =>
    intro x y hy
    rw [List.mem_singleton] at hy
    rw [hy]
    exact le_refl _
  | cons a xs ih =>
    intro x y hy
    rw [List.foldl_cons]
    rcases List.mem_cons.mp hy with hy | hy
    · calc y = x := hy
        _ ≤ max x a := le_max_left _ _
        _ ≤ xs.foldl max (max x a) := ih (max x a) _ (List.mem_cons_self _ _)
    · rcases List.mem_cons.mp hy with hy | hy
      · calc y = a := hy
          _ ≤ max x a := le_max_right _ _
          _ ≤ xs.foldl max (max x a) := ih (max x a) _ (List.mem_cons_self _ _)
      · exact ih (max x a) y (List.mem_cons_of_mem _ hy)

theorem foldl_max_mem (xs : List ℚ) : ∀ x, xs.foldl max x ∈ x :: xs := by
  induction xs with
  | nil => intro x; exact List.mem_singleton.mpr rfl
  | cons a xs ih =>
    intro x
    rw [List.foldl_cons]
    rcases List.mem_cons.mp (ih (max x a)) with h | h
    · rcases max_choice x a with hc | hc
      · rw [h, hc]; exact List.mem_cons_self _ _
      · rw [h, hc]; exact List.mem_cons_of_mem _ (List.mem_cons_self _ _)
    · exact List.mem_cons_of_mem _ (List.mem_cons_of_mem _ h)

theorem mathMin_spec (temps : List ℚ) (hne : temps ≠ []) :
    ControlUnit.mathMin temps ∈ temps ∧ ∀ y ∈ temps, ControlUnit.mathMin temps ≤ y := by
  cases temps with
  | nil => exact absurd rfl hne
  | cons t ts =>
    unfold ControlUnit.mathMin
    exact ⟨foldl_min_mem ts t, fun y hy => foldl_min_le ts t y hy⟩

theorem mathMax_spec (temps : List ℚ) (hne : temps ≠ []) :
    ControlUnit.mathMax temps ∈ temps ∧ ∀ y ∈ temps, y ≤ ControlUnit.mathMax temps := by
  cases temps with
  | nil => exact absurd rfl hne
  | cons t ts =>
    unfold ControlUnit.mathMax
    exact ⟨foldl_max_mem ts t, fun y hy => foldl_max_le ts t y hy⟩

/-- C6: aggregate statistics.  For every store state, getStatistics returns
the defined zero-valued result on an empty history (and when no temp field
parses), never an error; on any history with parseable temperatures it
returns the exact count, the exact mean (sum over count), and a minimum
and maximum that belong to the temperature values and bound them all. -/
theorem C6_statistics (st : ControlUnit.StoreState) :
    (st.telemetryHistory = [] → ControlUnit.getStatistics st = ⟨0, 0, 0, 0⟩) ∧
    (ControlUnit.parsedTemps st = [] → ControlUnit.getStatistics st = ⟨0, 0, 0, 0⟩) ∧
    (ControlUnit.parsedTemps st ≠ [] →
      (ControlUnit.getStatistics st).count = (ControlUnit.parsedTemps st).length ∧
      (ControlUnit.getStatistics st).avg =
        (ControlUnit.parsedTemps st).sum / ((ControlUnit.parsedTemps st).length : ℚ) ∧
      ((ControlUnit.getStatistics st).min ∈ ControlUnit.parsedTemps st ∧
        ∀ y ∈ ControlUnit.parsedTemps st, (ControlUnit.getStatistics st).min ≤ y) ∧
      ((ControlUnit.getStatistics st).max ∈ ControlUnit.parsedTemps st ∧
        ∀ y ∈ ControlUnit.parsedTemps st, y ≤ (ControlUnit.getStatistics st).max)) := by
  refine ⟨fun h => ?_, fun h => ?_, fun h => ?_⟩
  · unfold ControlUnit.getStatistics
    rw [if_pos (by rw [h]; rfl)]
  · unfold ControlUnit.getStatistics
    split_ifs with h1
    · rfl
    · simp only []
      rw [if_pos (by rw [h]; rfl)]
  · have hlen : ¬st.telemetryHistory.length = 0 := by
      intro h0
      exact h (by
        unfold ControlUnit.parsedTemps
        rw [List.length_eq_zero.mp h0]
        rfl)
    have htl : ¬(ControlUnit.parsedTemps st).length = 0 :=
      fun h0 => h (List.length_eq_zero.mp h0)
    unfold ControlUnit.getStatistics
    rw [if_neg hlen]
    simp only []
    rw [if_neg htl]
    refine ⟨rfl, ?_, mathMin_spec _ h, mathMax_spec _ h⟩
    rw [← List.sum_eq_foldl]

/-- C9: a record whose temp field is absent or unparsable re-derives the
relay's mode with temperature 0 (the parseFloat-or-zero fallback), so
storing it always drives the published mode to NORMAL, whatever the
previous mode was; when the previous mode was not NORMAL, the change is
published. -/
theorem C9_malformed_temp_normal (st : ControlUnit.StoreState) (r : ControlUnit.TRec)
    (hr : r.temp? = none) :
    (ControlUnit.storeTelemetry st r).1.currentState = strL "NORMAL" ∧
    r.temp?.getD 0 = 0 ∧
    (st.currentState ≠ strL "NORMAL" →
      (ControlUnit.storeTelemetry st r).2 = [strL "NORMAL"]) := by
  have ht : r.temp?.getD 0 = 0 := by rw [hr]; rfl
  have hjs : ControlUnit.jsNewState 0 = strL "NORMAL" := by
    unfold ControlUnit.jsNewState
    rw [if_neg (by norm_num), if_neg (by norm_num)]
  have hmain : (ControlUnit.storeTelemetry st r).1.currentState = strL "NORMAL" ∧
      (st.currentState ≠ strL "NORMAL" →
        (ControlUnit.storeTelemetry st r).2 = [strL "NORMAL"]) := by
    unfold ControlUnit.storeTelemetry ControlUnit.updateState
    rw [ht, hjs]
    simp only []
    by_cases hc : strL "NORMAL" = st.currentState
    · rw [if_neg (by simpa using hc)]
      exact ⟨hc.symm, fun hne => absurd hc.symm hne⟩
    · rw [if_pos (by simpa using hc)]
      exact ⟨rfl, fun _ => rfl⟩
  exact ⟨hmain.1, ht, hmain.2⟩

/-- Witness for C9: storing a record with an unparsable temp field into a
store whose mode is CRITICAL drops the mode to NORMAL and publishes it. -/
theorem C9_witness :
    (ControlUnit.storeTelemetry
        { telemetryHistory := [], maxHistory := 100, currentState := strL "CRITICAL" }
        (⟨none, 5⟩ : ControlUnit.TRec)).1.currentState = strL "NORMAL" ∧
    (⟨none, 5⟩ : ControlUnit.TRec).temp?.getD 0 = 0 ∧
    (({ telemetryHistory := [], maxHistory := 100,
        currentState := strL "CRITICAL" } : ControlUnit.StoreState).currentState ≠
        strL "NORMAL" →
      (ControlUnit.storeTelemetry
          { telemetryHistory := [], maxHistory := 100, currentState := strL "CRITICAL" }
          (⟨none, 5⟩ : ControlUnit.TRec)).2 = [strL "NORMAL"]) :=
  C9_malformed_temp_normal
    { telemetryHistory := [], maxHistory := 100, currentState := strL "CRITICAL" }
    ⟨none, 5⟩ rfl
